import Mathlib

/-!
Shallow embedding of src/extension/ws-client.js (class SimpleWebSocket):
the frame codec (_encodeFrame, _processFrames) and the connection
operations (send, close, _onData, _onClose, _sendPong).

Buffers are modelled as lists of Nat (Buffer entries, each 0..255 on the
wire). Randomness (crypto.randomBytes(4)) is modelled by an oracle field
rnd : List (List Nat); each draw pops the head, which is a 4-byte mask.
Socket and emitter effects are modelled as an event list:
  Ev.write b    for socket.write(b)
  Ev.message p  for this.emit(message, p.toString(utf8)), kept as bytes
  Ev.close      for this.emit(close)
The while loop of _processFrames is embedded as a fuel-indexed loop;
the fuel s.buffer.length is always sufficient because every iteration
that does not return consumes at least 2 bytes (proved below).
-/

/-- Observable effects of the client: messages and close events emitted
to the caller, and byte strings written to the socket. -/
inductive Ev where
  | message (payload : List Nat)
  | close
  | write (bytes : List Nat)
  deriving DecidableEq, Repr

/-- State of a SimpleWebSocket instance: the connected flag, whether
this.socket is non-null, whether socket.end() was called, the receive
buffer this._buffer, and the oracle of future crypto.randomBytes(4)
draws. -/
structure WS where
  connected : Bool
  socketLive : Bool
  socketEnded : Bool
  buffer : List Nat
  rnd : List (List Nat)
  deriving DecidableEq, Repr

/-- Big-endian 16-bit write, as Buffer.writeUInt16BE produces. -/
def u16be (n : Nat) : List Nat := [n / 256 % 256, n % 256]

/-- Big-endian 32-bit write, as Buffer.writeUInt32BE produces. -/
def u32be (n : Nat) : List Nat :=
  [n / 16777216 % 256, n / 65536 % 256, n / 256 % 256, n % 256]

/-- Buffer.readUInt16BE at index i. -/
def readU16 (b : List Nat) (i : Nat) : Nat :=
  b.getD i 0 * 256 + b.getD (i + 1) 0

/-- Buffer.readUInt32BE at index i. -/
def readU32 (b : List Nat) (i : Nat) : Nat :=
  b.getD i 0 * 16777216 + b.getD (i + 1) 0 * 65536 +
    b.getD (i + 2) 0 * 256 + b.getD (i + 3) 0

/-- The masking loop payload[i] XOR mask[i % 4], starting at index i. -/
def maskBytesAux (mask : List Nat) : Nat → List Nat → List Nat
  | _, [] => []
  | i, b :: bs => (b ^^^ mask.getD (i % 4) 0) :: maskBytesAux mask (i + 1) bs

/-- Masking (and, by XOR involution, unmasking) of a payload with a
4-byte mask, as in _encodeFrame, _sendPong and _processFrames. -/
def maskBytes (mask payload : List Nat) : List Nat := maskBytesAux mask 0 payload

/-- _encodeFrame(payload) with the random 4-byte mask made explicit:
FIN plus text opcode (0x81), mask bit, and the three header size
classes for the payload length. -/
def encodeFrame (payload mask : List Nat) : List Nat :=
  if payload.length < 126 then
    [0x81, 0x80 ||| payload.length] ++ mask ++ maskBytes mask payload
  else if payload.length < 65536 then
    [0x81, 0x80 ||| 126] ++ u16be payload.length ++ mask ++ maskBytes mask payload
  else
    [0x81, 0x80 ||| 127] ++ u32be 0 ++ u32be payload.length ++ mask ++
      maskBytes mask payload

/-- _onClose(): clear connected, destroy and null the socket if present,
and emit a close event (unconditionally, on every call). -/
def onClose (s : WS) : WS × List Ev :=
  ({ s with connected := false, socketLive := false }, [Ev.close])

/-- _sendPong(payload): if the socket is null do nothing, otherwise
write one masked pong frame (0x8A) echoing the payload. The length
byte is truncated to 8 bits as a Buffer write does. -/
def sendPong (s : WS) (payload : List Nat) : WS × List Ev :=
  if s.socketLive = false then (s, [])
  else
    ({ s with rnd := s.rnd.tail },
      [Ev.write ([0x8A, (0x80 ||| payload.length) % 256] ++ s.rnd.headD [0, 0, 0, 0] ++
        maskBytes (s.rnd.headD [0, 0, 0, 0]) payload)])

/-- close(): if this.socket is non-null, write the fixed 6-byte masked
close frame and end the socket; in every case set connected to false.
Note the socket reference itself is not cleared here. -/
def close (s : WS) : WS × List Ev :=
  if s.socketLive = true then
    ({ s with rnd := s.rnd.tail, socketEnded := true, connected := false },
      [Ev.write ([0x88, 0x80] ++ s.rnd.headD [0, 0, 0, 0])])
  else
    ({ s with connected := false }, [])

/-- send(data): throw when not connected or the socket is null,
otherwise write one encoded text frame with a fresh mask. -/
def send (s : WS) (data : List Nat) : Except String (WS × List Ev) :=
  if s.connected = false ∨ s.socketLive = false then
    Except.error "WebSocket not connected"
  else
    Except.ok ({ s with rnd := s.rnd.tail },
      [Ev.write (encodeFrame data (s.rnd.headD [0, 0, 0, 0]))])

/-- Result of one iteration of the _processFrames while loop: either
return for more data, or consume one frame producing a new state and
events; stop = true is the early return of the close-frame branch. -/
inductive StepRes where
  | needMore
  | consumed (s : WS) (evs : List Ev) (stop : Bool)
  deriving DecidableEq, Repr

/-- Body of one _processFrames iteration after the header length field
has been read: payloadLength and offset0 (2, 4 or 10) are known, the
mask bit extends the offset, the frame is consumed and dispatched on
the opcode (text 0x1, close 0x8, ping 0x9, others ignored). -/
def stepCont (s : WS) (payloadLength offset0 : Nat) : StepRes :=
  let offset := if s.buffer.getD 1 0 &&& 0x80 ≠ 0 then offset0 + 4 else offset0
  if s.buffer.length < offset + payloadLength then StepRes.needMore
  else
    let raw := (s.buffer.drop offset).take payloadLength
    let payload := if s.buffer.getD 1 0 &&& 0x80 ≠ 0
      then maskBytes ((s.buffer.drop (offset - 4)).take 4) raw
      else raw
    let s1 : WS := { s with buffer := s.buffer.drop (offset + payloadLength) }
    if s.buffer.getD 0 0 &&& 0x0F = 1 then
      StepRes.consumed s1 [Ev.message payload] false
    else if s.buffer.getD 0 0 &&& 0x0F = 8 then
      StepRes.consumed (onClose s1).1 (onClose s1).2 true
    else if s.buffer.getD 0 0 &&& 0x0F = 9 then
      StepRes.consumed (sendPong s1 payload).1 (sendPong s1 payload).2 false
    else
      StepRes.consumed s1 [] false

/-- One iteration of the _processFrames while loop: the 2-byte minimum
header, then the 126 and 127 extended length classes with their own
minimum header sizes, then the common continuation. -/
def step (s : WS) : StepRes :=
  if s.buffer.length < 2 then StepRes.needMore
  else if s.buffer.getD 1 0 &&& 0x7F = 126 then
    if s.buffer.length < 4 then StepRes.needMore
    else stepCont s (readU16 s.buffer 2) 4
  else if s.buffer.getD 1 0 &&& 0x7F = 127 then
    if s.buffer.length < 10 then StepRes.needMore
    else stepCont s (readU32 s.buffer 6) 10
  else
    stepCont s (s.buffer.getD 1 0 &&& 0x7F) 2

/-- Fuel-indexed unfolding of the _processFrames while loop; the loop
returns on needMore and on the close-frame early return, and otherwise
continues on the advanced buffer. -/
def processLoop : Nat → WS → WS × List Ev
  | 0, s => (s, [])
  | fuel + 1, s =>
    match step s with
    | StepRes.needMore => (s, [])
    | StepRes.consumed s1 evs stop =>
      if stop then (s1, evs)
      else ((processLoop fuel s1).1, evs ++ (processLoop fuel s1).2)

/-- _processFrames(): run the loop; s.buffer.length fuel is always
enough because each consumed frame removes at least 2 bytes. -/
def processFrames (s : WS) : WS × List Ev := processLoop s.buffer.length s

/-- _onData(chunk): append the chunk to the receive buffer and run
_processFrames. -/
def onData (s : WS) (chunk : List Nat) : WS × List Ev :=
  processFrames { s with buffer := s.buffer ++ chunk }

/-- Feed a list of data chunks in order, concatenating the emitted
events. -/
def feedChunks (s : WS) : List (List Nat) → WS × List Ev
  | [] => (s, [])
  | c :: cs =>
    ((feedChunks (onData s c).1 cs).1,
      (onData s c).2 ++ (feedChunks (onData s c).1 cs).2)

/-- The first frame in the buffer is complete: at least the minimal
header is present and the declared header and payload lengths are
available, exactly the condition under which one loop iteration of
_processFrames consumes a frame. -/
def frameComplete (b : List Nat) : Bool :=
  if b.length < 2 then false
  else if b.getD 1 0 &&& 0x7F = 126 then
    if b.length < 4 then false
    else decide ((if b.getD 1 0 &&& 0x80 ≠ 0 then 8 else 4) + readU16 b 2 ≤ b.length)
  else if b.getD 1 0 &&& 0x7F = 127 then
    if b.length < 10 then false
    else decide ((if b.getD 1 0 &&& 0x80 ≠ 0 then 14 else 10) + readU32 b 6 ≤ b.length)
  else
    decide ((if b.getD 1 0 &&& 0x80 ≠ 0 then 6 else 2) + (b.getD 1 0 &&& 0x7F) ≤ b.length)

/-- A concrete open connection used for concrete evaluations. -/
def ws0 : WS :=
  { connected := true, socketLive := true, socketEnded := false,
    buffer := [], rnd := [[1, 2, 3, 4], [5, 6, 7, 8]] }

/-! Basic lemmas about masking and byte access. -/

lemma maskBytesAux_length (m : List Nat) (i : Nat) (p : List Nat) :
    (maskBytesAux m i p).length = p.length := by
  induction p generalizing i with
  | nil => rfl
  | cons b bs ih => simp [maskBytesAux, ih]

lemma maskBytes_length (m p : List Nat) : (maskBytes m p).length = p.length :=
  maskBytesAux_length m 0 p

lemma maskBytesAux_inv (m : List Nat) (i : Nat) (p : List Nat) :
    maskBytesAux m i (maskBytesAux m i p) = p := by
  induction p generalizing i with
  | nil => rfl
  | cons b bs ih => simp [maskBytesAux, Nat.xor_cancel_right, ih]

lemma maskBytes_inv (m p : List Nat) : maskBytes m (maskBytes m p) = p :=
  maskBytesAux_inv m 0 p

lemma getD_take (l : List Nat) (k i : Nat) (h : i < k) :
    (l.take k).getD i 0 = l.getD i 0 := by
  simp [List.getD, List.getElem?_take, h]

lemma exists_four (m : List Nat) (hm : m.length = 4) :
    ∃ a b c d : Nat, m = [a, b, c, d] := by
  match m, hm with
  | [a, b, c, d], _ => exact ⟨a, b, c, d, rfl⟩

lemma lor128_eq : ∀ n : Nat, n < 126 → 128 ||| n = 128 + n := by decide

lemma land127_eq : ∀ n : Nat, n < 126 → (128 + n) &&& 127 = n := by decide

lemma land128_ne : ∀ n : Nat, n < 126 → (128 + n) &&& 128 ≠ 0 := by decide

/-! Shapes of the three encodeFrame size classes with an explicit
4-byte mask. -/

lemma encodeFrame_small (p : List Nat) (hp : p.length < 126) (a b c d : Nat) :
    encodeFrame p [a, b, c, d] =
      129 :: (128 + p.length) :: a :: b :: c :: d :: maskBytes [a, b, c, d] p := by
  simp [encodeFrame, hp, lor128_eq p.length hp]

lemma encodeFrame_mid (p : List Nat) (h1 : ¬ p.length < 126) (h2 : p.length < 65536)
    (a b c d : Nat) :
    encodeFrame p [a, b, c, d] =
      129 :: 254 :: (p.length / 256 % 256) :: (p.length % 256) ::
        a :: b :: c :: d :: maskBytes [a, b, c, d] p := by
  simp [encodeFrame, h1, h2, u16be, (show (128 ||| 126 : Nat) = 254 from by decide)]

lemma encodeFrame_big (p : List Nat) (h2 : ¬ p.length < 65536) (a b c d : Nat) :
    encodeFrame p [a, b, c, d] =
      129 :: 255 :: 0 :: 0 :: 0 :: 0 ::
        (p.length / 16777216 % 256) :: (p.length / 65536 % 256) ::
        (p.length / 256 % 256) :: (p.length % 256) ::
        a :: b :: c :: d :: maskBytes [a, b, c, d] p := by
  have h1 : ¬ p.length < 126 := by omega
  simp [encodeFrame, h1, h2, u32be, (show (128 ||| 127 : Nat) = 255 from by decide)]

/-! Loop infrastructure: every consumed iteration removes at least two
bytes, which makes the fuel s.buffer.length adequate. -/

lemma onClose_buffer (s : WS) : (onClose s).1.buffer = s.buffer := rfl

lemma sendPong_buffer (s : WS) (p : List Nat) : (sendPong s p).1.buffer = s.buffer := by
  unfold sendPong
  split <;> rfl

lemma stepCont_length (s : WS) (pl off0 : Nat) (h2 : 2 ≤ off0) (s1 : WS)
    (evs : List Ev) (stop : Bool) (h : stepCont s pl off0 = StepRes.consumed s1 evs stop) :
    s1.buffer.length + 2 ≤ s.buffer.length := by
  simp only [stepCont] at h
  repeat' split at h
  all_goals cases h
  all_goals simp only [onClose_buffer, sendPong_buffer, List.length_drop]
  all_goals omega

lemma step_length (s : WS) (s1 : WS) (evs : List Ev) (stop : Bool)
    (h : step s = StepRes.consumed s1 evs stop) :
    s1.buffer.length + 2 ≤ s.buffer.length := by
  simp only [step] at h
  repeat' split at h
  any_goals cases h
  · exact stepCont_length s _ 4 (by omega) s1 evs stop h
  · exact stepCont_length s _ 10 (by omega) s1 evs stop h
  · exact stepCont_length s _ 2 (by omega) s1 evs stop h

lemma step_of_short (s : WS) (h : s.buffer.length < 2) : step s = StepRes.needMore := by
  simp [step, h]

lemma processLoop_congr (f : Nat) : ∀ (g : Nat) (s : WS),
    s.buffer.length ≤ f → s.buffer.length ≤ g → processLoop f s = processLoop g s := by
  induction f with
  | zero =>
    intro g s hf hg
    cases g with
    | zero => rfl
    | succ g => simp [processLoop, step_of_short s (by omega)]
  | succ f ih =>
    intro g s hf hg
    cases g with
    | zero => simp [processLoop, step_of_short s (by omega)]
    | succ g =>
      simp only [processLoop]
      cases hstep : step s with
      | needMore => rfl
      | consumed s1 evs stop =>
        have hlen := step_length s s1 evs stop hstep
        cases stop with
        | true => simp
        | false => simp [ih g s1 (by omega) (by omega)]

lemma processFrames_needMore (s : WS) (h : step s = StepRes.needMore) :
    processFrames s = (s, []) := by
  unfold processFrames
  cases hb : s.buffer.length with
  | zero => rfl
  | succ n => simp [processLoop, h]

lemma processFrames_nil (s : WS) (h : s.buffer = []) : processFrames s = (s, []) :=
  processFrames_needMore s (step_of_short s (by simp [h]))

lemma processFrames_stop (s s1 : WS) (evs : List Ev)
    (h : step s = StepRes.consumed s1 evs true) : processFrames s = (s1, evs) := by
  have hlen := step_length s s1 evs true h
  unfold processFrames
  obtain ⟨n, hn⟩ : ∃ n, s.buffer.length = n + 1 := ⟨s.buffer.length - 1, by omega⟩
  rw [hn]
  simp [processLoop, h]

lemma processFrames_consumed (s s1 : WS) (evs : List Ev)
    (h : step s = StepRes.consumed s1 evs false) :
    processFrames s = ((processFrames s1).1, evs ++ (processFrames s1).2) := by
  have hlen := step_length s s1 evs false h
  unfold processFrames
  obtain ⟨n, hn⟩ : ∃ n, s.buffer.length = n + 1 := ⟨s.buffer.length - 1, by omega⟩
  rw [hn]
  simp only [processLoop, h, if_neg (by simp : ¬ (false = true))]
  rw [processLoop_congr n s1.buffer.length s1 (by omega) (le_refl _)]

/-! Decoding an encoded frame: one loop iteration consumes it whole and
emits the unmasked payload as a message. -/

lemma take_maskBytes (m p : List Nat) :
    (maskBytes m p).take p.length = maskBytes m p := by
  conv_lhs => rw [← maskBytes_length m p]
  exact List.take_length _

lemma stepCont_masked_text (s : WS) (pl off0 : Nat)
    (hmask : s.buffer.getD 1 0 &&& 0x80 ≠ 0)
    (hop : s.buffer.getD 0 0 &&& 0x0F = 1)
    (hlen : ¬ s.buffer.length < off0 + 4 + pl) :
    stepCont s pl off0 = StepRes.consumed
      { s with buffer := s.buffer.drop (off0 + 4 + pl) }
      [Ev.message (maskBytes ((s.buffer.drop off0).take 4)
        ((s.buffer.drop (off0 + 4)).take pl))] false := by
  simp only [stepCont]
  rw [if_pos hmask, if_neg hlen, if_pos hmask, if_pos hop, Nat.add_sub_cancel]

lemma step_encode_small (p : List Nat) (hp : p.length < 126) (a b c d : Nat) (s : WS)
    (hb : s.buffer = encodeFrame p [a, b, c, d]) :
    step s = StepRes.consumed { s with buffer := [] } [Ev.message p] false := by
  rw [encodeFrame_small p hp] at hb
  have hlen : s.buffer.length = 6 + p.length := by
    rw [hb]; simp [maskBytes_length]; omega
  have h0 : s.buffer.getD 0 0 = 129 := by rw [hb]; rfl
  have h1 : s.buffer.getD 1 0 = 128 + p.length := by rw [hb]; rfl
  have hpl : s.buffer.getD 1 0 &&& 127 = p.length := by
    rw [h1]; exact land127_eq p.length hp
  have hmask : s.buffer.getD 1 0 &&& 0x80 ≠ 0 := by
    rw [h1]; exact land128_ne p.length hp
  have hop : s.buffer.getD 0 0 &&& 0x0F = 1 := by rw [h0]; decide
  have hc126 : ¬ s.buffer.getD 1 0 &&& 127 = 126 := by rw [hpl]; omega
  have hc127 : ¬ s.buffer.getD 1 0 &&& 127 = 127 := by rw [hpl]; omega
  have hdrop6 : s.buffer.drop 6 = maskBytes [a, b, c, d] p := by rw [hb]; rfl
  have hdrop2 : (s.buffer.drop 2).take 4 = [a, b, c, d] := by rw [hb]; rfl
  have hall : s.buffer.drop (6 + p.length) = [] :=
    List.drop_eq_nil_of_le (by omega)
  unfold step
  rw [if_neg (by omega : ¬ s.buffer.length < 2), if_neg hc126, if_neg hc127, hpl,
    stepCont_masked_text s p.length 2 hmask hop (by omega)]
  rw [show (2 : Nat) + 4 = 6 from rfl, hall, hdrop2, hdrop6, take_maskBytes,
    maskBytes_inv]

lemma step_encode_mid (p : List Nat) (h1' : ¬ p.length < 126) (h2 : p.length < 65536)
    (a b c d : Nat) (s : WS) (hb : s.buffer = encodeFrame p [a, b, c, d]) :
    step s = StepRes.consumed { s with buffer := [] } [Ev.message p] false := by
  rw [encodeFrame_mid p h1' h2] at hb
  have hlen : s.buffer.length = 8 + p.length := by
    rw [hb]; simp [maskBytes_length]; omega
  have h0 : s.buffer.getD 0 0 = 129 := by rw [hb]; rfl
  have h1 : s.buffer.getD 1 0 = 254 := by rw [hb]; rfl
  have hrd : readU16 s.buffer 2 = p.length := by
    have e2 : s.buffer.getD 2 0 = p.length / 256 % 256 := by rw [hb]; rfl
    have e3 : s.buffer.getD 3 0 = p.length % 256 := by rw [hb]; rfl
    rw [readU16, e2, e3]; omega
  have hmask : s.buffer.getD 1 0 &&& 0x80 ≠ 0 := by rw [h1]; decide
  have hop : s.buffer.getD 0 0 &&& 0x0F = 1 := by rw [h0]; decide
  have hc126 : s.buffer.getD 1 0 &&& 127 = 126 := by rw [h1]; decide
  have hdrop8 : s.buffer.drop 8 = maskBytes [a, b, c, d] p := by rw [hb]; rfl
  have hdrop4 : (s.buffer.drop 4).take 4 = [a, b, c, d] := by rw [hb]; rfl
  have hall : s.buffer.drop (8 + p.length) = [] :=
    List.drop_eq_nil_of_le (by omega)
  unfold step
  rw [if_neg (by omega : ¬ s.buffer.length < 2), if_pos hc126,
    if_neg (by omega : ¬ s.buffer.length < 4), hrd,
    stepCont_masked_text s p.length 4 hmask hop (by omega)]
  rw [show (4 : Nat) + 4 = 8 from rfl, hall, hdrop4, hdrop8, take_maskBytes,
    maskBytes_inv]

lemma step_encode_big (p : List Nat) (h2 : ¬ p.length < 65536)
    (hp : p.length < 4294967296) (a b c d : Nat) (s : WS)
    (hb : s.buffer = encodeFrame p [a, b, c, d]) :
    step s = StepRes.consumed { s with buffer := [] } [Ev.message p] false := by
  rw [encodeFrame_big p h2] at hb
  have hlen : s.buffer.length = 14 + p.length := by
    rw [hb]; simp [maskBytes_length]; omega
  have h0 : s.buffer.getD 0 0 = 129 := by rw [hb]; rfl
  have h1 : s.buffer.getD 1 0 = 255 := by rw [hb]; rfl
  have hrd : readU32 s.buffer 6 = p.length := by
    have e6 : s.buffer.getD 6 0 = p.length / 16777216 % 256 := by rw [hb]; rfl
    have e7 : s.buffer.getD 7 0 = p.length / 65536 % 256 := by rw [hb]; rfl
    have e8 : s.buffer.getD 8 0 = p.length / 256 % 256 := by rw [hb]; rfl
    have e9 : s.buffer.getD 9 0 = p.length % 256 := by rw [hb]; rfl
    rw [readU32, e6, e7, e8, e9]; omega
  have hmask : s.buffer.getD 1 0 &&& 0x80 ≠ 0 := by rw [h1]; decide
  have hop : s.buffer.getD 0 0 &&& 0x0F = 1 := by rw [h0]; decide
  have hc126 : ¬ s.buffer.getD 1 0 &&& 127 = 126 := by rw [h1]; decide
  have hc127 : s.buffer.getD 1 0 &&& 127 = 127 := by rw [h1]; decide
  have hdrop14 : s.buffer.drop 14 = maskBytes [a, b, c, d] p := by rw [hb]; rfl
  have hdrop10 : (s.buffer.drop 10).take 4 = [a, b, c, d] := by rw [hb]; rfl
  have hall : s.buffer.drop (14 + p.length) = [] :=
    List.drop_eq_nil_of_le (by omega)
  unfold step
  rw [if_neg (by omega : ¬ s.buffer.length < 2), if_neg hc126, if_pos hc127,
    if_neg (by omega : ¬ s.buffer.length < 10), hrd,
    stepCont_masked_text s p.length 10 hmask hop (by omega)]
  rw [show (10 : Nat) + 4 = 14 from rfl, hall, hdrop10, hdrop14, take_maskBytes,
    maskBytes_inv]

lemma step_encode (p mask : List Nat) (hm : mask.length = 4)
    (hp : p.length < 4294967296) (s : WS) (hb : s.buffer = encodeFrame p mask) :
    step s = StepRes.consumed { s with buffer := [] } [Ev.message p] false := by
  obtain ⟨a, b, c, d, rfl⟩ := exists_four mask hm
  by_cases c1 : p.length < 126
  · exact step_encode_small p c1 a b c d s hb
  · by_cases c2 : p.length < 65536
    · exact step_encode_mid p c1 c2 a b c d s hb
    · exact step_encode_big p c2 hp a b c d s hb

lemma decode_encode (p mask : List Nat) (hm : mask.length = 4)
    (hp : p.length < 4294967296) (s : WS) (hb : s.buffer = encodeFrame p mask) :
    processFrames s = ({ s with buffer := [] }, [Ev.message p]) := by
  rw [processFrames_consumed s _ _ (step_encode p mask hm hp s hb),
    processFrames_nil { s with buffer := [] } rfl]
  simp

/-! Strict front parts of an encoded frame never let the loop consume:
the decoder asks for more data and the buffer is untouched. -/

lemma step_take_small (p : List Nat) (hp : p.length < 126) (a b c d : Nat)
    (k : Nat) (hk : k < 6 + p.length) (s : WS)
    (hb : s.buffer = (encodeFrame p [a, b, c, d]).take k) :
    step s = StepRes.needMore := by
  rw [encodeFrame_small p hp] at hb
  set L := 129 :: (128 + p.length) :: a :: b :: c :: d :: maskBytes [a, b, c, d] p with hL
  have hLlen : L.length = 6 + p.length := by simp [hL, maskBytes_length]; omega
  have hlen : s.buffer.length = k := by rw [hb, List.length_take, hLlen]; omega
  by_cases hk2 : k < 2
  · exact step_of_short s (by omega)
  · have h1 : s.buffer.getD 1 0 = 128 + p.length := by
      rw [hb, getD_take L k 1 (by omega)]; rfl
    have hpl : s.buffer.getD 1 0 &&& 127 = p.length := by
      rw [h1]; exact land127_eq p.length hp
    have hmask : s.buffer.getD 1 0 &&& 0x80 ≠ 0 := by
      rw [h1]; exact land128_ne p.length hp
    unfold step
    rw [if_neg (by omega : ¬ s.buffer.length < 2),
      if_neg (by rw [hpl]; omega : ¬ s.buffer.getD 1 0 &&& 127 = 126),
      if_neg (by rw [hpl]; omega : ¬ s.buffer.getD 1 0 &&& 127 = 127), hpl]
    simp only [stepCont]
    rw [if_pos hmask, if_pos (by omega : s.buffer.length < 2 + 4 + p.length)]

lemma step_take_mid (p : List Nat) (h1' : ¬ p.length < 126) (h2 : p.length < 65536)
    (a b c d : Nat) (k : Nat) (hk : k < 8 + p.length) (s : WS)
    (hb : s.buffer = (encodeFrame p [a, b, c, d]).take k) :
    step s = StepRes.needMore := by
  rw [encodeFrame_mid p h1' h2] at hb
  set L := 129 :: 254 :: (p.length / 256 % 256) :: (p.length % 256) ::
    a :: b :: c :: d :: maskBytes [a, b, c, d] p with hL
  have hLlen : L.length = 8 + p.length := by simp [hL, maskBytes_length]; omega
  have hlen : s.buffer.length = k := by rw [hb, List.length_take, hLlen]; omega
  by_cases hk2 : k < 2
  · exact step_of_short s (by omega)
  have h1 : s.buffer.getD 1 0 = 254 := by
    rw [hb, getD_take L k 1 (by omega)]; rfl
  have hc126 : s.buffer.getD 1 0 &&& 127 = 126 := by rw [h1]; decide
  by_cases hk4 : k < 4
  · unfold step
    rw [if_neg (by omega : ¬ s.buffer.length < 2), if_pos hc126,
      if_pos (by omega : s.buffer.length < 4)]
  · have hrd : readU16 s.buffer 2 = p.length := by
      have e2 : s.buffer.getD 2 0 = p.length / 256 % 256 := by
        rw [hb, getD_take L k 2 (by omega)]; rfl
      have e3 : s.buffer.getD 3 0 = p.length % 256 := by
        rw [hb, getD_take L k 3 (by omega)]; rfl
      rw [readU16, e2, e3]; omega
    have hmask : s.buffer.getD 1 0 &&& 0x80 ≠ 0 := by rw [h1]; decide
    unfold step
    rw [if_neg (by omega : ¬ s.buffer.length < 2), if_pos hc126,
      if_neg (by omega : ¬ s.buffer.length < 4), hrd]
    simp only [stepCont]
    rw [if_pos hmask, if_pos (by omega : s.buffer.length < 4 + 4 + p.length)]

lemma step_take_big (p : List Nat) (h2 : ¬ p.length < 65536)
    (hp : p.length < 4294967296) (a b c d : Nat) (k : Nat)
    (hk : k < 14 + p.length) (s : WS)
    (hb : s.buffer = (encodeFrame p [a, b, c, d]).take k) :
    step s = StepRes.needMore := by
  rw [encodeFrame_big p h2] at hb
  set L := 129 :: 255 :: 0 :: 0 :: 0 :: 0 ::
    (p.length / 16777216 % 256) :: (p.length / 65536 % 256) ::
    (p.length / 256 % 256) :: (p.length % 256) ::
    a :: b :: c :: d :: maskBytes [a, b, c, d] p with hL
  have hLlen : L.length = 14 + p.length := by simp [hL, maskBytes_length]; omega
  have hlen : s.buffer.length = k := by rw [hb, List.length_take, hLlen]; omega
  by_cases hk2 : k < 2
  · exact step_of_short s (by omega)
  have h1 : s.buffer.getD 1 0 = 255 := by
    rw [hb, getD_take L k 1 (by omega)]; rfl
  have hc126 : ¬ s.buffer.getD 1 0 &&& 127 = 126 := by rw [h1]; decide
  have hc127 : s.buffer.getD 1 0 &&& 127 = 127 := by rw [h1]; decide
  by_cases hk10 : k < 10
  · unfold step
    rw [if_neg (by omega : ¬ s.buffer.length < 2), if_neg hc126, if_pos hc127,
      if_pos (by omega : s.buffer.length < 10)]
  · have hrd : readU32 s.buffer 6 = p.length := by
      have e6 : s.buffer.getD 6 0 = p.length / 16777216 % 256 := by
        rw [hb, getD_take L k 6 (by omega)]; rfl
      have e7 : s.buffer.getD 7 0 = p.length / 65536 % 256 := by
        rw [hb, getD_take L k 7 (by omega)]; rfl
      have e8 : s.buffer.getD 8 0 = p.length / 256 % 256 := by
        rw [hb, getD_take L k 8 (by omega)]; rfl
      have e9 : s.buffer.getD 9 0 = p.length % 256 := by
        rw [hb, getD_take L k 9 (by omega)]; rfl
      rw [readU32, e6, e7, e8, e9]; omega
    have hmask : s.buffer.getD 1 0 &&& 0x80 ≠ 0 := by rw [h1]; decide
    unfold step
    rw [if_neg (by omega : ¬ s.buffer.length < 2), if_neg hc126, if_pos hc127,
      if_neg (by omega : ¬ s.buffer.length < 10), hrd]
    simp only [stepCont]
    rw [if_pos hmask, if_pos (by omega : s.buffer.length < 10 + 4 + p.length)]

lemma step_take (p mask : List Nat) (hm : mask.length = 4)
    (hp : p.length < 4294967296) (k : Nat) (hk : k < (encodeFrame p mask).length)
    (s : WS) (hb : s.buffer = (encodeFrame p mask).take k) :
    step s = StepRes.needMore := by
  obtain ⟨a, b, c, d, rfl⟩ := exists_four mask hm
  by_cases c1 : p.length < 126
  · refine step_take_small p c1 a b c d k ?_ s hb
    rw [encodeFrame_small p c1] at hk
    simp [maskBytes_length] at hk
    omega
  · by_cases c2 : p.length < 65536
    · refine step_take_mid p c1 c2 a b c d k ?_ s hb
      rw [encodeFrame_mid p c1 c2] at hk
      simp [maskBytes_length] at hk
      omega
    · refine step_take_big p c2 hp a b c d k ?_ s hb
      rw [encodeFrame_big p c2] at hk
      simp [maskBytes_length] at hk
      omega

/-! Chunked delivery of one encoded frame. -/

lemma feedChunks_empty (cs : List (List Nat)) : ∀ s : WS,
    cs.flatten = [] → s.buffer = [] → feedChunks s cs = (s, []) := by
  induction cs with
  | nil => intro s _ _; rfl
  | cons c cs ih =>
    intro s hcs hb
    rw [List.flatten_cons] at hcs
    have hc : c = [] := by
      rcases List.append_eq_nil.mp hcs with ⟨h1, _⟩
      exact h1
    have hcs2 : cs.flatten = [] := by
      rcases List.append_eq_nil.mp hcs with ⟨_, h2⟩
      exact h2
    have hod : onData s c = (s, []) := by
      unfold onData
      have hb2 : ({ s with buffer := s.buffer ++ c } : WS) = s := by
        rw [hc]
        simp
      rw [hb2, processFrames_nil s hb]
    simp only [feedChunks, hod]
    rw [ih s hcs2 hb]
    simp

lemma feedChunks_frame (p mask : List Nat) (hm : mask.length = 4)
    (hp : p.length < 4294967296) :
    ∀ (cs : List (List Nat)) (acc : List Nat) (s : WS),
      s.buffer = acc → acc ++ cs.flatten = encodeFrame p mask →
      acc.length < (encodeFrame p mask).length →
      feedChunks s cs = ({ s with buffer := [] }, [Ev.message p]) := by
  intro cs
  induction cs with
  | nil =>
    intro acc s hb hjoin hlt
    rw [List.flatten_nil, List.append_nil] at hjoin
    rw [hjoin] at hlt
    omega
  | cons c cs ih =>
    intro acc s hb hjoin hlt
    have hbuf : ({ s with buffer := s.buffer ++ c } : WS).buffer = acc ++ c := by
      simp [hb]
    have hjoin2 : (acc ++ c) ++ cs.flatten = encodeFrame p mask := by
      rw [List.append_assoc, ← List.flatten_cons]
      exact hjoin
    by_cases hend : (acc ++ c).length < (encodeFrame p mask).length
    · have htake : acc ++ c = (encodeFrame p mask).take (acc ++ c).length := by
        rw [← hjoin2, List.take_left]
      have hstall : processFrames { s with buffer := s.buffer ++ c } =
          ({ s with buffer := s.buffer ++ c }, []) :=
        processFrames_needMore _
          (step_take p mask hm hp (acc ++ c).length hend _ (by rw [hbuf]; exact htake))
      simp only [feedChunks, onData, hstall]
      rw [ih (acc ++ c) { s with buffer := s.buffer ++ c } hbuf hjoin2 hend]
      simp
    · have hlenflat := congrArg List.length hjoin2
      rw [List.length_append] at hlenflat
      have hjn : cs.flatten = [] :=
        List.length_eq_zero.mp (by omega)
      have hacc : acc ++ c = encodeFrame p mask := by
        rw [hjn, List.append_nil] at hjoin2
        exact hjoin2
      have hdec : processFrames { s with buffer := s.buffer ++ c } =
          ({ s with buffer := [] }, [Ev.message p]) := by
        have h := decode_encode p mask hm hp { s with buffer := s.buffer ++ c }
          (by rw [hbuf]; exact hacc)
        simpa using h
      simp only [feedChunks, onData, hdec]
      rw [feedChunks_empty cs { s with buffer := [] } hjn rfl]
      simp

lemma encodeFrame_pos (p mask : List Nat) : 0 < (encodeFrame p mask).length := by
  unfold encodeFrame
  split
  · simp
  · split <;> simp

/-- Claim C1: feeding the bytes of an encoded text frame to the decoder
in any number of chunks yields exactly the same result, one decoded
message carrying the original payload, as feeding all bytes at once;
and on any strict front part of the frame (insufficient buffered bytes
for the declared header or payload length) the decoder returns without
consuming any bytes and without emitting any message or error. -/
theorem claimC1_split_delivery (p mask : List Nat) (hm : mask.length = 4)
    (hp : p.length < 4294967296) (s : WS) (hbuf : s.buffer = [])
    (cs : List (List Nat)) (hcs : cs.flatten = encodeFrame p mask)
    (k : Nat) (hk : k < (encodeFrame p mask).length) :
    feedChunks s cs = onData s (encodeFrame p mask)
    ∧ onData s ((encodeFrame p mask).take k) =
        ({ s with buffer := (encodeFrame p mask).take k }, []) := by
  have hall : onData s (encodeFrame p mask) = ({ s with buffer := [] }, [Ev.message p]) := by
    unfold onData
    have h := decode_encode p mask hm hp
      { s with buffer := s.buffer ++ encodeFrame p mask } (by simp [hbuf])
    simpa using h
  constructor
  · rw [feedChunks_frame p mask hm hp cs [] s hbuf (by simp [hcs])
      (by simpa using encodeFrame_pos p mask), hall]
  · unfold onData
    have hstep := step_take p mask hm hp k hk
      { s with buffer := s.buffer ++ (encodeFrame p mask).take k } (by simp [hbuf])
    rw [processFrames_needMore _ hstep]
    simp [hbuf]

/-- Witness for claim C1 at a concrete frame, split and front length. -/
theorem claimC1_split_delivery_witness :
    ([0, 0, 0, 0] : List Nat).length = 4 ∧ ([97] : List Nat).length < 4294967296 ∧
    ws0.buffer = [] ∧
    ([[129, 129, 0], [0, 0, 0, 97]] : List (List Nat)).flatten = encodeFrame [97] [0, 0, 0, 0] ∧
    3 < (encodeFrame [97] [0, 0, 0, 0]).length ∧
    (feedChunks ws0 [[129, 129, 0], [0, 0, 0, 97]] = onData ws0 (encodeFrame [97] [0, 0, 0, 0])
      ∧ onData ws0 ((encodeFrame [97] [0, 0, 0, 0]).take 3) =
          ({ ws0 with buffer := (encodeFrame [97] [0, 0, 0, 0]).take 3 }, [])) :=
  ⟨by decide, by decide, rfl, by decide, by decide,
    claimC1_split_delivery [97] [0, 0, 0, 0] (by decide) (by decide) ws0 rfl
      [[129, 129, 0], [0, 0, 0, 97]] (by decide) 3 (by decide)⟩

/-- Claim C2: decoding the bytes produced by Encode for any payload
below 2^32 bytes, in particular lengths 0, 10, 125, 126, 65535 and
65536, yields exactly one text message whose payload equals the
original payload byte for byte, leaving the buffer empty. -/
theorem claimC2_round_trip (p mask : List Nat) (hm : mask.length = 4)
    (hp : p.length < 4294967296) (s : WS) (hbuf : s.buffer = []) :
    onData s (encodeFrame p mask) = ({ s with buffer := [] }, [Ev.message p]) := by
  unfold onData
  have h := decode_encode p mask hm hp
    { s with buffer := s.buffer ++ encodeFrame p mask } (by simp [hbuf])
  simpa using h

/-- Witness for claim C2 at a concrete 10-byte payload. -/
theorem claimC2_round_trip_witness :
    ([1, 2, 3, 4] : List Nat).length = 4 ∧
    (List.replicate 10 104).length < 4294967296 ∧ ws0.buffer = [] ∧
    onData ws0 (encodeFrame (List.replicate 10 104) [1, 2, 3, 4]) =
      ({ ws0 with buffer := [] }, [Ev.message (List.replicate 10 104)]) :=
  ⟨by decide, by decide, rfl,
    claimC2_round_trip (List.replicate 10 104) [1, 2, 3, 4] (by decide) (by decide) ws0 rfl⟩

lemma encodeFrame_maskbit (p mask : List Nat) (hm : mask.length = 4) :
    (encodeFrame p mask).getD 1 0 &&& 0x80 ≠ 0 := by
  obtain ⟨a, b, c, d, rfl⟩ := exists_four mask hm
  by_cases c1 : p.length < 126
  · rw [encodeFrame_small p c1]
    exact land128_ne p.length c1
  · by_cases c2 : p.length < 65536
    · rw [encodeFrame_mid p c1 c2]
      exact (by decide : (254 : Nat) &&& 0x80 ≠ 0)
    · rw [encodeFrame_big p c2]
      exact (by decide : (255 : Nat) &&& 0x80 ≠ 0)

/-- Counterexample to claim C3: the 7-byte frame 81 81 00 00 00 00 61
received from the peer has its mask bit set, yet the decoder does not
reject or ignore it: it delivers the (unmasked) payload 61 as a
message. -/
theorem claimC3_counterexample :
    ([129, 129, 0, 0, 0, 0, 97] : List Nat).getD 1 0 &&& 0x80 ≠ 0 ∧
    (onData ws0 [129, 129, 0, 0, 0, 0, 97]).2 = [Ev.message [97]] :=
  ⟨by decide, by decide⟩

/-- Claim C3 amended: for every received frame whose mask bit is set
(every Encode output has it set), the decoder does not treat the frame
as a protocol error: it unmasks the payload with the 4 mask bytes
preceding it and delivers the unmasked payload as a message. -/
theorem claimC3_masked_frame_delivered (p mask : List Nat) (hm : mask.length = 4)
    (hp : p.length < 4294967296) (s : WS) (hbuf : s.buffer = []) :
    (encodeFrame p mask).getD 1 0 &&& 0x80 ≠ 0 ∧
    (onData s (encodeFrame p mask)).2 = [Ev.message p] := by
  refine ⟨encodeFrame_maskbit p mask hm, ?_⟩
  unfold onData
  have h := decode_encode p mask hm hp
    { s with buffer := s.buffer ++ encodeFrame p mask } (by simp [hbuf])
  rw [h]

/-- Witness for the amended claim C3 at a concrete masked frame. -/
theorem claimC3_masked_frame_delivered_witness :
    ([7, 7, 7, 7] : List Nat).length = 4 ∧ ([10, 20] : List Nat).length < 4294967296 ∧
    ws0.buffer = [] ∧
    ((encodeFrame [10, 20] [7, 7, 7, 7]).getD 1 0 &&& 0x80 ≠ 0 ∧
      (onData ws0 (encodeFrame [10, 20] [7, 7, 7, 7])).2 = [Ev.message [10, 20]]) :=
  ⟨by decide, by decide, rfl,
    claimC3_masked_frame_delivered [10, 20] [7, 7, 7, 7] (by decide) (by decide) ws0 rfl⟩

/-! Close-frame handling. -/

lemma step_close_frame (s : WS) (rest : List Nat)
    (hbuf : s.buffer = 136 :: 0 :: rest) :
    step s = StepRes.consumed
      { s with connected := false, socketLive := false, buffer := rest }
      [Ev.close] true := by
  have hlen : s.buffer.length = 2 + rest.length := by rw [hbuf]; simp; omega
  have h1 : s.buffer.getD 1 0 = 0 := by rw [hbuf]; rfl
  have h0 : s.buffer.getD 0 0 = 136 := by rw [hbuf]; rfl
  have hdrop : s.buffer.drop (2 + 0) = rest := by rw [hbuf]; rfl
  unfold step
  rw [h1, if_neg (by omega : ¬ s.buffer.length < 2),
    if_neg (by decide : ¬ (0 : Nat) &&& 127 = 126),
    if_neg (by decide : ¬ (0 : Nat) &&& 127 = 127),
    (by decide : (0 : Nat) &&& 127 = 0)]
  simp only [stepCont]
  rw [h1, h0, if_neg (by decide : ¬ ((0 : Nat) &&& 0x80 ≠ 0)),
    if_neg (by omega : ¬ s.buffer.length < 2 + 0),
    if_neg (by decide : ¬ ((136 : Nat) &&& 0x0F = 1)),
    if_pos (by decide : (136 : Nat) &&& 0x0F = 8), hdrop]
  rfl

/-- Counterexample to claim C4: decoding a complete Close frame emits
one close event, but when the socket-level close event follows (the
socket was destroyed, so its close event does fire), the close handler
re-emits unconditionally and the caller observes two close events, not
exactly one. -/
theorem claimC4_counterexample :
    ws0.connected = true ∧
    (onData ws0 [136, 0]).2 = [Ev.close] ∧
    (onClose (onData ws0 [136, 0]).1).2 = [Ev.close] ∧
    ((onData ws0 [136, 0]).2 ++ (onClose (onData ws0 [136, 0]).1).2).count Ev.close = 2 :=
  ⟨rfl, by decide, by decide, by decide⟩

/-- Claim C4 amended: feeding a complete Close frame while the
connection is Open transitions the state to Closed, stops processing
any further bytes remaining in the same buffer, and emits exactly one
close event from that decode pass; a subsequent socket-level close
event however emits one further close event (the handler re-emits on
every call), rather than none. -/
theorem claimC4_close_frame (s : WS) (rest : List Nat)
    (hconn : s.connected = true) (hsock : s.socketLive = true)
    (hbuf : s.buffer = 136 :: 0 :: rest) :
    processFrames s =
      ({ s with connected := false, socketLive := false, buffer := rest }, [Ev.close])
    ∧ (onClose { s with connected := false, socketLive := false, buffer := rest }).2 =
        [Ev.close] :=
  ⟨processFrames_stop s _ _ (step_close_frame s rest hbuf), rfl⟩

/-- Witness for the amended claim C4: a Close frame followed by a
complete text frame in the same buffer. -/
theorem claimC4_close_frame_witness :
    ({ ws0 with buffer := [136, 0, 129, 1, 97] } : WS).connected = true ∧
    ({ ws0 with buffer := [136, 0, 129, 1, 97] } : WS).socketLive = true ∧
    ({ ws0 with buffer := [136, 0, 129, 1, 97] } : WS).buffer = 136 :: 0 :: [129, 1, 97] ∧
    (processFrames { ws0 with buffer := [136, 0, 129, 1, 97] } =
      ({ { ws0 with buffer := [136, 0, 129, 1, 97] } with
          connected := false, socketLive := false, buffer := [129, 1, 97] }, [Ev.close])
    ∧ (onClose { { ws0 with buffer := [136, 0, 129, 1, 97] } with
          connected := false, socketLive := false, buffer := [129, 1, 97] }).2 = [Ev.close]) :=
  ⟨rfl, rfl, rfl,
    claimC4_close_frame { ws0 with buffer := [136, 0, 129, 1, 97] } [129, 1, 97] rfl rfl rfl⟩

/-- Counterexample to claim C5: ws0 is Open; the first close() leaves
the connection Closed (connected = false) but the socket reference
still set, so a second close() writes another 6-byte Close frame to
the socket instead of being a no-op. -/
theorem claimC5_counterexample :
    ws0.connected = true ∧
    (close ws0).1.connected = false ∧
    (close (close ws0).1).2 = [Ev.write [136, 128, 5, 6, 7, 8]] :=
  ⟨rfl, rfl, by decide⟩

/-- Claim C5 amended: close() never raises an error, and a repeated
close() is a no-op (no write, nothing but clearing connected) exactly
when the socket reference has already been cleared by the socket close
handler; while the reference is still set, every close() call writes a
Close frame again. -/
theorem claimC5_close_idempotent_after_null (s : WS) (h : s.socketLive = false) :
    close s = ({ s with connected := false }, []) := by
  unfold close
  rw [if_neg (by simp [h])]

/-- Witness for the amended claim C5. -/
theorem claimC5_close_idempotent_after_null_witness :
    ({ ws0 with socketLive := false } : WS).socketLive = false ∧
    close { ws0 with socketLive := false } =
      ({ { ws0 with socketLive := false } with connected := false }, []) :=
  ⟨rfl, claimC5_close_idempotent_after_null { ws0 with socketLive := false } rfl⟩

/-- Claim C6: send(text) while the connection is not Open (connected
cleared or socket null, covering Connecting and Closed) fails with the
not connected error and writes nothing to the socket; only when Open
does it succeed, writing exactly one encoded text frame. -/
theorem claimC6_send_requires_open (s : WS) (data : List Nat) :
    (¬ (s.connected = true ∧ s.socketLive = true) →
      send s data = Except.error "WebSocket not connected")
    ∧ (s.connected = true ∧ s.socketLive = true →
      send s data = Except.ok ({ s with rnd := s.rnd.tail },
        [Ev.write (encodeFrame data (s.rnd.headD [0, 0, 0, 0]))])) := by
  constructor
  · intro h
    have hcond : s.connected = false ∨ s.socketLive = false := by
      cases hc : s.connected
      · exact Or.inl rfl
      · cases hs : s.socketLive
        · exact Or.inr rfl
        · exact absurd ⟨hc, hs⟩ h
    unfold send
    rw [if_pos hcond]
  · rintro ⟨hc, hs⟩
    unfold send
    rw [if_neg (by simp [hc, hs])]

/-- Witness for claim C6: a Closed state fails, the open state ws0
succeeds. -/
theorem claimC6_send_requires_open_witness :
    send { ws0 with connected := false } [104, 105] =
      Except.error "WebSocket not connected"
    ∧ send ws0 [104, 105] = Except.ok ({ ws0 with rnd := ws0.rnd.tail },
        [Ev.write (encodeFrame [104, 105] (ws0.rnd.headD [0, 0, 0, 0]))]) :=
  ⟨(claimC6_send_requires_open { ws0 with connected := false } [104, 105]).1 (by decide),
    (claimC6_send_requires_open ws0 [104, 105]).2 ⟨rfl, rfl⟩⟩

/-! Ping handling. -/

lemma step_ping_abc (s : WS) (m : List Nat) (rest : List (List Nat))
    (hsock : s.socketLive = true) (hr : s.rnd = m :: rest)
    (hbuf : s.buffer = [137, 3, 97, 98, 99]) :
    step s = StepRes.consumed
      { s with buffer := [], rnd := rest }
      [Ev.write ([138, 131] ++ m ++ maskBytes m [97, 98, 99])] false := by
  have hlen : s.buffer.length = 5 := by rw [hbuf]; rfl
  have h1 : s.buffer.getD 1 0 = 3 := by rw [hbuf]; rfl
  have h0 : s.buffer.getD 0 0 = 137 := by rw [hbuf]; rfl
  have hdrop : s.buffer.drop (2 + 3) = [] := by rw [hbuf]; rfl
  have hraw : (s.buffer.drop 2).take 3 = [97, 98, 99] := by rw [hbuf]; rfl
  unfold step
  rw [h1, if_neg (by omega : ¬ s.buffer.length < 2),
    if_neg (by decide : ¬ (3 : Nat) &&& 127 = 126),
    if_neg (by decide : ¬ (3 : Nat) &&& 127 = 127),
    (by decide : (3 : Nat) &&& 127 = 3)]
  simp only [stepCont]
  rw [h1, h0, if_neg (by decide : ¬ ((3 : Nat) &&& 0x80 ≠ 0)),
    if_neg (by omega : ¬ s.buffer.length < 2 + 3),
    if_neg (by decide : ¬ ((137 : Nat) &&& 0x0F = 1)),
    if_neg (by decide : ¬ ((137 : Nat) &&& 0x0F = 8)),
    if_pos (by decide : (137 : Nat) &&& 0x0F = 9), hdrop, hraw]
  rw [if_neg (by decide : ¬ ((3 : Nat) &&& 0x80 ≠ 0))]
  unfold sendPong
  rw [if_neg (by simp [hsock] : ¬ ({ s with buffer := ([] : List Nat) } : WS).socketLive = false)]
  simp [hr, (show ((128 ||| 3 : Nat)) % 256 = 131 from by decide)]

/-- Claim C8: feeding a well-formed Ping frame with payload abc
(89 03 61 62 63) to the decoder of an Open connection writes back
exactly one Pong frame using the next fresh 4-byte mask m: its header
byte 8A, its second byte 131 (mask bit set, length 3), then m, then
the masked payload, which unmasks to abc; and no message event is
emitted for the ping. -/
theorem claimC8_ping_pong (s : WS) (m : List Nat) (rest : List (List Nat))
    (hconn : s.connected = true) (hsock : s.socketLive = true)
    (hbuf : s.buffer = []) (hr : s.rnd = m :: rest) :
    onData s [137, 3, 97, 98, 99] =
      ({ s with buffer := [], rnd := rest },
        [Ev.write ([138, 131] ++ m ++ maskBytes m [97, 98, 99])])
    ∧ maskBytes m (maskBytes m [97, 98, 99]) = [97, 98, 99]
    ∧ (131 : Nat) &&& 0x80 ≠ 0 := by
  refine ⟨?_, maskBytes_inv m [97, 98, 99], by decide⟩
  unfold onData
  have hstep := step_ping_abc { s with buffer := s.buffer ++ [137, 3, 97, 98, 99] }
    m rest (by simp [hsock]) (by simp [hr]) (by simp [hbuf])
  rw [processFrames_consumed _ _ _ hstep, processFrames_nil _ rfl]
  simp

/-- Witness for claim C8 at the concrete open state ws0. -/
theorem claimC8_ping_pong_witness :
    ws0.connected = true ∧ ws0.socketLive = true ∧ ws0.buffer = [] ∧
    ws0.rnd = [1, 2, 3, 4] :: [[5, 6, 7, 8]] ∧
    (onData ws0 [137, 3, 97, 98, 99] =
      ({ ws0 with buffer := [], rnd := [[5, 6, 7, 8]] },
        [Ev.write ([138, 131] ++ [1, 2, 3, 4] ++ maskBytes [1, 2, 3, 4] [97, 98, 99])])
    ∧ maskBytes [1, 2, 3, 4] (maskBytes [1, 2, 3, 4] [97, 98, 99]) = [97, 98, 99]
    ∧ (131 : Nat) &&& 0x80 ≠ 0) :=
  ⟨rfl, rfl, rfl, rfl,
    claimC8_ping_pong ws0 [1, 2, 3, 4] [[5, 6, 7, 8]] rfl rfl rfl rfl⟩

/-! Buffer invariant after a decode pass. -/

lemma stepCont_needMore_iff (s : WS) (pl off0 : Nat) :
    stepCont s pl off0 = StepRes.needMore ↔
      s.buffer.length <
        (if s.buffer.getD 1 0 &&& 0x80 ≠ 0 then off0 + 4 else off0) + pl := by
  by_cases hg : s.buffer.length <
      (if s.buffer.getD 1 0 &&& 0x80 ≠ 0 then off0 + 4 else off0) + pl
  · simp only [stepCont]
    rw [if_pos hg]
    simpa using hg
  · simp only [stepCont]
    rw [if_neg hg]
    constructor
    · intro h
      exfalso
      repeat' split at h
      all_goals cases h
    · intro h
      exact absurd h hg

lemma stepCont_stop_close (s : WS) (pl off0 : Nat) (s1 : WS) (evs : List Ev)
    (h : stepCont s pl off0 = StepRes.consumed s1 evs true) : evs = [Ev.close] := by
  simp only [stepCont] at h
  by_cases m : s.buffer.getD 1 0 &&& 0x80 ≠ 0
  · simp only [if_pos m] at h
    by_cases hg : s.buffer.length < off0 + 4 + pl
    · rw [if_pos hg] at h
      cases h
    · rw [if_neg hg] at h
      by_cases o1 : s.buffer.getD 0 0 &&& 0x0F = 1
      · rw [if_pos o1] at h
        cases h
      · rw [if_neg o1] at h
        by_cases o8 : s.buffer.getD 0 0 &&& 0x0F = 8
        · rw [if_pos o8] at h
          cases h
          rfl
        · rw [if_neg o8] at h
          by_cases o9 : s.buffer.getD 0 0 &&& 0x0F = 9
          · rw [if_pos o9] at h
            cases h
          · rw [if_neg o9] at h
            cases h
  · simp only [if_neg m] at h
    by_cases hg : s.buffer.length < off0 + pl
    · rw [if_pos hg] at h
      cases h
    · rw [if_neg hg] at h
      by_cases o1 : s.buffer.getD 0 0 &&& 0x0F = 1
      · rw [if_pos o1] at h
        cases h
      · rw [if_neg o1] at h
        by_cases o8 : s.buffer.getD 0 0 &&& 0x0F = 8
        · rw [if_pos o8] at h
          cases h
          rfl
        · rw [if_neg o8] at h
          by_cases o9 : s.buffer.getD 0 0 &&& 0x0F = 9
          · rw [if_pos o9] at h
            cases h
          · rw [if_neg o9] at h
            cases h

lemma step_stop_close (s s1 : WS) (evs : List Ev)
    (h : step s = StepRes.consumed s1 evs true) : evs = [Ev.close] := by
  unfold step at h
  by_cases c0 : s.buffer.length < 2
  · rw [if_pos c0] at h
    cases h
  · rw [if_neg c0] at h
    by_cases c126 : s.buffer.getD 1 0 &&& 0x7F = 126
    · rw [if_pos c126] at h
      by_cases c4 : s.buffer.length < 4
      · rw [if_pos c4] at h
        cases h
      · rw [if_neg c4] at h
        exact stepCont_stop_close s _ 4 s1 evs h
    · rw [if_neg c126] at h
      by_cases c127 : s.buffer.getD 1 0 &&& 0x7F = 127
      · rw [if_pos c127] at h
        by_cases c10 : s.buffer.length < 10
        · rw [if_pos c10] at h
          cases h
        · rw [if_neg c10] at h
          exact stepCont_stop_close s _ 10 s1 evs h
      · rw [if_neg c127] at h
        exact stepCont_stop_close s _ 2 s1 evs h

lemma step_needMore_iff (s : WS) :
    step s = StepRes.needMore ↔ frameComplete s.buffer = false := by
  unfold step frameComplete
  by_cases c0 : s.buffer.length < 2
  · simp [c0]
  · rw [if_neg c0, if_neg c0]
    by_cases c126 : s.buffer.getD 1 0 &&& 0x7F = 126
    · rw [if_pos c126, if_pos c126]
      by_cases c4 : s.buffer.length < 4
      · simp [c4]
      · rw [if_neg c4, if_neg c4, stepCont_needMore_iff]
        by_cases m : s.buffer.getD 1 0 &&& 0x80 ≠ 0
        · simp only [if_pos m, decide_eq_false_iff_not]
          omega
        · simp only [if_neg m, decide_eq_false_iff_not]
          omega
    · rw [if_neg c126, if_neg c126]
      by_cases c127 : s.buffer.getD 1 0 &&& 0x7F = 127
      · rw [if_pos c127, if_pos c127]
        by_cases c10 : s.buffer.length < 10
        · simp [c10]
        · rw [if_neg c10, if_neg c10, stepCont_needMore_iff]
          by_cases m : s.buffer.getD 1 0 &&& 0x80 ≠ 0
          · simp only [if_pos m, decide_eq_false_iff_not]
            omega
          · simp only [if_neg m, decide_eq_false_iff_not]
            omega
      · rw [if_neg c127, if_neg c127, stepCont_needMore_iff]
        by_cases m : s.buffer.getD 1 0 &&& 0x80 ≠ 0
        · simp only [if_pos m, decide_eq_false_iff_not]
          omega
        · simp only [if_neg m, decide_eq_false_iff_not]
          omega

lemma noCompleteLeft : ∀ n : Nat, ∀ s : WS, s.buffer.length ≤ n →
    Ev.close ∉ (processFrames s).2 →
    frameComplete (processFrames s).1.buffer = false := by
  intro n
  induction n with
  | zero =>
    intro s hl _
    have hb : s.buffer = [] := List.length_eq_zero.mp (by omega)
    rw [processFrames_nil s hb, hb]
    rfl
  | succ n ih =>
    intro s hl h
    cases hstep : step s with
    | needMore =>
      rw [processFrames_needMore s hstep]
      exact (step_needMore_iff s).mp hstep
    | consumed s1 evs stop =>
      cases stop with
      | true =>
        exfalso
        rw [processFrames_stop s s1 evs hstep] at h
        rw [step_stop_close s s1 evs hstep] at h
        simp at h
      | false =>
        have hlen := step_length s s1 evs false hstep
        rw [processFrames_consumed s s1 evs hstep]
        rw [processFrames_consumed s s1 evs hstep] at h
        have h2 : Ev.close ∉ (processFrames s1).2 := by
          intro hc
          exact h (by simp [hc])
        exact ih s1 (by omega) h2

/-- Counterexample to claim C7: over the buffer 88 00 81 01 61 (a Close
frame followed by a complete text frame) the decode pass stops at the
Close frame and leaves the complete unconsumed text frame 81 01 61 in
the buffer. -/
theorem claimC7_counterexample :
    (onData ws0 [136, 0, 129, 1, 97]).1.buffer = [129, 1, 97] ∧
    frameComplete (onData ws0 [136, 0, 129, 1, 97]).1.buffer = true :=
  ⟨by decide, by decide⟩

/-- Claim C7 amended: after every decode pass in which no Close frame
was consumed, the buffer contains either nothing or the front part of
one incomplete frame, never a complete unconsumed frame. When a Close
frame is consumed, the loop returns early and the bytes behind it,
possibly whole frames, stay in the buffer. -/
theorem claimC7_no_complete_frame_left (s : WS)
    (h : Ev.close ∉ (processFrames s).2) :
    frameComplete (processFrames s).1.buffer = false :=
  noCompleteLeft s.buffer.length s (le_refl _) h

/-- Witness for the amended claim C7: a complete text frame followed by
the start of another frame. -/
theorem claimC7_no_complete_frame_left_witness :
    Ev.close ∉ (processFrames { ws0 with buffer := [129, 1, 97, 130] }).2 ∧
    frameComplete (processFrames { ws0 with buffer := [129, 1, 97, 130] }).1.buffer = false :=
  ⟨by decide, claimC7_no_complete_frame_left { ws0 with buffer := [129, 1, 97, 130] } (by decide)⟩

/-- Claim C9: Encode selects the header by exactly three size classes.
Payload length below 126: total frame 2-byte header + 4 mask bytes +
payload, with the length in the low 7 bits of byte 1. Length in
126..65535: the 126 marker in byte 1 and a 2-byte big-endian length at
bytes 2..3, then 4 mask bytes. Length 65536 and above (below 2^32):
the 127 marker and an 8-byte big-endian length whose high 32 bits
(bytes 2..5) are zero and whose low 32 bits (bytes 6..9) hold the
length. In particular a 65536-byte payload uses the 127 marker and
decodes back to exactly its 65536 bytes. -/
theorem claimC9_size_classes (p mask : List Nat) (hm : mask.length = 4)
    (s : WS) (hbuf : s.buffer = []) :
    (p.length < 126 →
      (encodeFrame p mask).length = 2 + 4 + p.length ∧
      (encodeFrame p mask).getD 1 0 &&& 0x7F = p.length)
    ∧ (126 ≤ p.length → p.length < 65536 →
      (encodeFrame p mask).length = 4 + 4 + p.length ∧
      (encodeFrame p mask).getD 1 0 &&& 0x7F = 126 ∧
      readU16 (encodeFrame p mask) 2 = p.length)
    ∧ (65536 ≤ p.length → p.length < 4294967296 →
      (encodeFrame p mask).length = 10 + 4 + p.length ∧
      (encodeFrame p mask).getD 1 0 &&& 0x7F = 127 ∧
      readU32 (encodeFrame p mask) 2 = 0 ∧
      readU32 (encodeFrame p mask) 6 = p.length)
    ∧ (p.length = 65536 →
      onData s (encodeFrame p mask) = ({ s with buffer := [] }, [Ev.message p])) := by
  obtain ⟨a, b, c, d, rfl⟩ := exists_four mask hm
  refine ⟨?_, ?_, ?_, ?_⟩
  · intro h1
    rw [encodeFrame_small p h1]
    refine ⟨by simp [maskBytes_length]; omega, ?_⟩
    exact land127_eq p.length h1
  · intro h1 h2
    rw [encodeFrame_mid p (by omega) h2]
    refine ⟨by simp [maskBytes_length]; omega,
      (by decide : (254 : Nat) &&& 0x7F = 126), ?_⟩
    show p.length / 256 % 256 * 256 + p.length % 256 = p.length
    omega
  · intro h1 h2
    rw [encodeFrame_big p (by omega)]
    refine ⟨by simp [maskBytes_length]; omega,
      (by decide : (255 : Nat) &&& 0x7F = 127), ?_, ?_⟩
    · show (0 : Nat) * 16777216 + 0 * 65536 + 0 * 256 + 0 = 0
      norm_num
    · show p.length / 16777216 % 256 * 16777216 + p.length / 65536 % 256 * 65536 +
        p.length / 256 % 256 * 256 + p.length % 256 = p.length
      omega
  · intro h65
    unfold onData
    have h := decode_encode p [a, b, c, d] rfl (by omega)
      { s with buffer := s.buffer ++ encodeFrame p [a, b, c, d] } (by simp [hbuf])
    simpa using h

/-- Witness for claim C9 at a concrete 65536-byte payload. -/
theorem claimC9_size_classes_witness :
    ([1, 2, 3, 4] : List Nat).length = 4 ∧ ws0.buffer = [] ∧
    ((encodeFrame (List.replicate 65536 97) [1, 2, 3, 4]).length =
        10 + 4 + (List.replicate 65536 97).length ∧
      (encodeFrame (List.replicate 65536 97) [1, 2, 3, 4]).getD 1 0 &&& 0x7F = 127 ∧
      readU32 (encodeFrame (List.replicate 65536 97) [1, 2, 3, 4]) 2 = 0 ∧
      readU32 (encodeFrame (List.replicate 65536 97) [1, 2, 3, 4]) 6 =
        (List.replicate 65536 97).length) ∧
    onData ws0 (encodeFrame (List.replicate 65536 97) [1, 2, 3, 4]) =
      ({ ws0 with buffer := [] }, [Ev.message (List.replicate 65536 97)]) :=
  ⟨by decide, rfl,
    (claimC9_size_classes (List.replicate 65536 97) [1, 2, 3, 4] (by decide) ws0 rfl).2.2.1
      (by norm_num) (by norm_num),
    (claimC9_size_classes (List.replicate 65536 97) [1, 2, 3, 4] (by decide) ws0 rfl).2.2.2
      (by norm_num)⟩

/-- Claim C10: the decode loop terminates on every finite buffer: each
iteration either returns (insufficient data, or the Close-frame early
stop) or consumes one complete frame of at least 2 bytes, so the
buffer length strictly decreases; consequently fuel equal to the
buffer length is always sufficient, and running the loop with any fuel
at least the buffer length gives the same result as processFrames. -/
theorem claimC10_decode_terminates (s : WS) (fuel : Nat) (s1 : WS)
    (evs : List Ev) (stop : Bool) (hf : s.buffer.length ≤ fuel) :
    processLoop fuel s = processFrames s
    ∧ (step s = StepRes.consumed s1 evs stop →
        s1.buffer.length + 2 ≤ s.buffer.length) :=
  ⟨processLoop_congr fuel s.buffer.length s hf (le_refl _),
    fun h => step_length s s1 evs stop h⟩

/-- Witness for claim C10 at a 2-byte text frame and fuel 100. -/
theorem claimC10_decode_terminates_witness :
    ({ ws0 with buffer := [129, 0] } : WS).buffer.length ≤ 100 ∧
    processLoop 100 { ws0 with buffer := [129, 0] } =
      processFrames { ws0 with buffer := [129, 0] } ∧
    (step { ws0 with buffer := [129, 0] } =
        StepRes.consumed { ws0 with buffer := [] } [Ev.message []] false →
      ({ ws0 with buffer := [] } : WS).buffer.length + 2 ≤
        ({ ws0 with buffer := [129, 0] } : WS).buffer.length) :=
  ⟨by decide,
    (claimC10_decode_terminates { ws0 with buffer := [129, 0] } 100
      { ws0 with buffer := [] } [Ev.message []] false (by decide)).1,
    (claimC10_decode_terminates { ws0 with buffer := [129, 0] } 100
      { ws0 with buffer := [] } [Ev.message []] false (by decide)).2⟩
